import Mathlib

/-!
Shallow embedding of the core of `server.go` from the 4paradigm k8s GPU
device plugin: the virtualized allocation handler (`Allocate`), the
preferred-allocation engine (`GetPreferredAllocation`), the crash-restart
supervisor loop inside `Serve`, the plugin-options handlers, the health
streaming loop (`ListAndWatch` together with `apiDevices`), and the
response-construction helpers (`apiEnvs`, `apiMounts`, `apiDeviceSpecs`,
`deviceIDsFromUUIDs`).

External collaborators that do not live in `server.go` (the `VDevice`
record, `VDevicesByIDs`, `UniqueDeviceIDs`, and the `VDeviceController`
binding ledger) are modelled from the specification, as marked on each
definition.  Go machine integers stay far from overflow in every use here
(loop counters, list lengths), so they are modelled as `Nat`; the
`float64` seconds of the crash loop are modelled as `ℚ`, which preserves
the only operation performed on them (the order comparison against 3600).
-/

/-- String membership in a list, mirroring the linear scans of the Go code. -/
def memb (x : String) : List String → Bool
  | [] => false
  | y :: rest => if y = x then true else memb x rest

/-- Model of Go `strings.Join`. -/
def joinSep (sep : String) : List String → String
  | [] => ""
  | [x] => x
  | x :: y :: rest => x ++ sep ++ joinSep sep (y :: rest)

/-- Collapse runs of consecutive path separators, the only part of Go
path cleaning that the inputs used in `server.go` exercise. -/
def collapseSlashes : List Char → List Char
  | [] => []
  | [c] => [c]
  | c :: d :: rest =>
    if c = '/' ∧ d = '/' then collapseSlashes (d :: rest)
    else c :: collapseSlashes (d :: rest)

/-- Model of Go `filepath.Join` on two components, restricted to the
cleaning its inputs in `server.go` need (duplicate separator removal). -/
def joinPath (a b : String) : String :=
  String.mk (collapseSlashes (a ++ "/" ++ b).data)

/-- Whether string `s` starts with `pre`, on the underlying characters. -/
def listStartsWith : List Char → List Char → Bool
  | [], _ => true
  | _ :: _, [] => false
  | c :: cs, d :: ds => if c = d then listStartsWith cs ds else false

/-- Whether string `s` starts with `pre`. -/
def strStartsWith (s pre : String) : Bool :=
  listStartsWith pre.data s.data

/-- A physical device as cached by the plugin (`Device` embeds the
protocol device: stable ID, string index, device-node paths, health).
Health is modelled as a `Bool` (`true` = Healthy). -/
structure Device where
  ID : String
  Index : String
  Paths : List String
  Health : Bool
deriving Repr, DecidableEq

/-- Modelled from the spec: a `VDevice` is a slice of exactly one
physical device, with its own ID (distinct from the physical ID), a
memory quantum in MB, and a back-reference to its physical device
(represented here by the physical device ID, standing for `vd.dev.ID`). -/
structure VDevice where
  ID : String
  memory : Nat
  devID : String
deriving Repr, DecidableEq

/-- Find a cached device by ID (the linear scans of `server.go`). -/
def findDev (devs : List Device) (id : String) : Option Device :=
  match devs with
  | [] => none
  | d :: rest => if d.ID = id then some d else findDev rest id

/-- Modelled from the spec: `VDevicesByIDs` resolves each requested ID to
its `VDevice` record, in request order, failing if any ID does not
resolve ("fails with unknown device if any ID does not resolve"). -/
def VDevicesByIDs (vds : List VDevice) : List String → Option (List VDevice)
  | [] => some []
  | id :: rest =>
    match findVD vds id, VDevicesByIDs vds rest with
    | some v, some l => some (v :: l)
    | _, _ => none
where
  /-- Find a virtual device record by its virtual ID. -/
  findVD (vds : List VDevice) (id : String) : Option VDevice :=
    match vds with
    | [] => none
    | v :: rest => if v.ID = id then some v else findVD rest id

/-- Helper for `UniqueDeviceIDs`: fold that appends each underlying
physical ID the first time it is seen. -/
def uniqueAux : List VDevice → List String → List String
  | [], acc => acc
  | vd :: rest, acc =>
    if memb vd.devID acc then uniqueAux rest acc
    else uniqueAux rest (acc ++ [vd.devID])

/-- Modelled from the spec: `UniqueDeviceIDs` reduces a list of virtual
devices to the underlying unique physical device IDs, in first-occurrence
order ("multiple virtual slices sharing one physical device collapse to
one entry"). -/
def UniqueDeviceIDs (vds : List VDevice) : List String :=
  uniqueAux vds []

/-- The first available virtual device whose underlying physical device
matches, mirroring the inner loop with `break` in
`GetPreferredAllocation`. -/
def findVDByDev (d : String) : List VDevice → Option VDevice
  | [] => none
  | vd :: rest => if vd.devID = d then some vd else findVDByDev d rest

/-- The allocation policy, consumed as a black box: given available and
required physical-device IDs and a target count it returns a chosen
subset (`gpuallocator.Policy.Allocate`). -/
abbrev Policy := List String → List String → Nat → List String

/-- Map each policy-chosen physical device back to one concrete virtual
device ID: the loop at the end of `GetPreferredAllocation` (first
matching virtual device, skip silently when none matches). -/
def mapBack (availableVDev : List VDevice) : List String → List String
  | [] => []
  | d :: rest =>
    match findVDByDev d availableVDev with
    | some vd => vd.ID :: mapBack availableVDev rest
    | none => mapBack availableVDev rest

/-- One container request of `GetPreferredAllocation` (`server.go` lines
278-323): resolve available and must-include IDs, collapse to unique
physical devices, invoke the policy, apply the first-`count` fallback
when the policy result is empty but enough unique physical devices are
available, and map the chosen physical devices back to virtual IDs.
`none` models the error returns.  `gpuallocator.NewDevicesFrom` is an
external lookup and is modelled as the identity on the UUID list. -/
def getPreferredAllocationOne (pol : Policy) (vds : List VDevice)
    (availIds mustIds : List String) (count : Nat) : Option (List String) :=
  match VDevicesByIDs vds availIds with
  | none => none
  | some availableVDev =>
    match VDevicesByIDs vds mustIds with
    | none => none
    | some requiredVDev =>
      let avail := UniqueDeviceIDs availableVDev
      let required := UniqueDeviceIDs requiredVDev
      let allocated0 := pol avail required count
      let allocated :=
        if allocated0.length = 0 ∧ count ≤ avail.length then avail.take count
        else allocated0
      some (mapBack availableVDev allocated)

/-- The `GetPreferredAllocation` handler over a list of container
requests `(availableIds, mustIncludeIds, allocationSize)`.  The Go
handler returns `(nil, nil)` under MIG strategy "mixed", modelled as
`Except.ok none`; a per-request resolution error aborts the whole call. -/
def gpaLoop (pol : Policy) (vds : List VDevice) :
    List (List String × List String × Nat) → Option (List (List String))
  | [] => some []
  | r :: rest =>
    match getPreferredAllocationOne pol vds r.1 r.2.1 r.2.2, gpaLoop pol vds rest with
    | some ids, some l => some (ids :: l)
    | _, _ => none

/-- The full `GetPreferredAllocation` RPC (`server.go` lines 271-326):
`Except.ok none` models the `(nil, nil)` return for MIG strategy
"mixed"; `Except.ok (some rs)` models a non-nil response with the
per-container granted ID lists; `Except.error` models a non-nil error. -/
def GetPreferredAllocationRPC (migStrategy : String) (pol : Policy)
    (vds : List VDevice) (reqs : List (List String × List String × Nat)) :
    Except String (Option (List (List String))) :=
  if migStrategy = "mixed" then Except.ok none
  else
    match gpaLoop pol vds reqs with
    | none => Except.error "Unable to retrieve list of available devices"
    | some rs => Except.ok (some rs)

/-- Modelled from the spec: the binding ledger (`VDeviceController`)
keeps the set of all virtual device IDs plus entries mapping a request
key (the originally requested ID set) to the granted virtual IDs.
Entries are created on acquire and removed on release. -/
structure VDeviceController where
  allIds : List String
  entries : List (List String × List String)
deriving Repr, DecidableEq

/-- Remove every ledger entry whose request key equals `k`. -/
def removeKey (k : List String) :
    List (List String × List String) → List (List String × List String)
  | [] => []
  | e :: rest => if e.1 = k then removeKey k rest else e :: removeKey k rest

/-- Modelled from the spec: `Release(requestIDs)` removes the entry
recorded under the request key. -/
def releaseByRequest (c : VDeviceController) (k : List String) :
    VDeviceController :=
  ⟨c.allIds, removeKey k c.entries⟩

/-- Modelled from the spec: `Acquire(requestIDs, grantedIDs)` records the
granted IDs under the request key (replacing any entry for that key). -/
def acquire (c : VDeviceController) (k g : List String) : VDeviceController :=
  ⟨c.allIds, (k, g) :: removeKey k c.entries⟩

/-- All virtual IDs bound by some ledger entry. -/
def boundIds : List (List String × List String) → List String
  | [] => []
  | e :: rest => e.2 ++ boundIds rest

/-- Modelled from the spec: `Available()` returns the virtual device IDs
not bound by any entry, in the ledger's ID order. -/
def availableIdsOf (c : VDeviceController) : List String :=
  c.allIds.filter (fun id => !(memb id (boundIds c.entries)))

/-- Ledger operations issued by `Allocate`, recorded as a trace.
`checkpoint` is `updateFromCheckpoint` (reconciliation against the
kubelet checkpoint, modelled as not changing the modelled state). -/
inductive LedgerOp where
  | checkpoint : LedgerOp
  | release : List String → LedgerOp
  | acq : List String → List String → LedgerOp
deriving Repr, DecidableEq

/-- Whether a ledger operation is an acquire. -/
def isAcq : LedgerOp → Bool
  | LedgerOp.acq _ _ => true
  | _ => false

instance {ε α : Type} [DecidableEq ε] [DecidableEq α] : DecidableEq (Except ε α) :=
  fun a b =>
    match a, b with
    | Except.error e, Except.error f =>
      if h : e = f then Decidable.isTrue (by rw [h])
      else Decidable.isFalse (by simp [h])
    | Except.ok x, Except.ok y =>
      if h : x = y then Decidable.isTrue (by rw [h])
      else Decidable.isFalse (by simp [h])
    | Except.error _, Except.ok _ => Decidable.isFalse (by simp)
    | Except.ok _, Except.error _ => Decidable.isFalse (by simp)

/-- Outcome of one container request inside virtualized `Allocate`:
the RPC result (granted virtual IDs or the error), the ledger state
after the request, and the trace of ledger operations it issued. -/
structure AllocStep where
  result : Except String (List String)
  ctrl : VDeviceController
  trace : List LedgerOp
deriving Repr, DecidableEq

/-- The granted IDs chosen for one request: the preferred-allocation
result when it has exactly the requested count, otherwise the first
`len(req)` currently available IDs (`server.go` lines 450-455). -/
def grantedOf (c1 : VDeviceController) (k preferIds : List String) :
    List String :=
  if preferIds.length = k.length then preferIds
  else (availableIdsOf c1).take k.length

/-- The part of one virtualized `Allocate` container request after the
initial `releaseByRequest` (`server.go` lines 436-485, ledger active,
monitor mode off): check availability, run the preferred-allocation
engine over the available set, fall back to the first `len(req)`
available IDs when the engine does not return exactly the requested
count, then acquire (before resolving the granted IDs, line 456) and
acquire again while recording the response annotations (line 484). -/
def allocateAfterRelease (pol : Policy) (vds : List VDevice)
    (c1 : VDeviceController) (k : List String) : AllocStep :=
  if (availableIdsOf c1).length < k.length then
    ⟨Except.error "no enough devices", c1, [LedgerOp.release k]⟩
  else
    match getPreferredAllocationOne pol vds (availableIdsOf c1) [] k.length with
    | none =>
      ⟨Except.error "Unable to retrieve list of available vdevices", c1,
        [LedgerOp.release k]⟩
    | some preferIds =>
      match VDevicesByIDs vds (grantedOf c1 k preferIds) with
      | none =>
        ⟨Except.error "unknown device", acquire c1 k (grantedOf c1 k preferIds),
          [LedgerOp.release k, LedgerOp.acq k (grantedOf c1 k preferIds)]⟩
      | some _ =>
        ⟨Except.ok (grantedOf c1 k preferIds),
          acquire (acquire c1 k (grantedOf c1 k preferIds)) k
            (grantedOf c1 k preferIds),
          [LedgerOp.release k, LedgerOp.acq k (grantedOf c1 k preferIds),
            LedgerOp.acq k (grantedOf c1 k preferIds)]⟩

/-- One container request of virtualized `Allocate` with the ledger
active (`server.go` lines 430-485): first release any existing binding
for this exact request, then proceed with availability check, selection
and the two acquires. -/
def allocateOne (pol : Policy) (vds : List VDevice) (c : VDeviceController)
    (k : List String) : AllocStep :=
  allocateAfterRelease pol vds (releaseByRequest c k) k

/-- Outcome of a whole virtualized `Allocate` call: per-container granted
ID lists (or the first error), final ledger state, operation trace. -/
structure AllocOut where
  result : Except String (List (List String))
  ctrl : VDeviceController
  trace : List LedgerOp
deriving Repr, DecidableEq

/-- The per-request loop of virtualized `Allocate`: requests are handled
in order and the first error aborts the call, keeping the ledger
mutations already committed by earlier requests. -/
def allocateLoop (pol : Policy) (vds : List VDevice) :
    VDeviceController → List (List String) → AllocOut
  | c, [] => ⟨Except.ok [], c, []⟩
  | c, k :: rest =>
    let s := allocateOne pol vds c k
    match s.result with
    | Except.error e => ⟨Except.error e, s.ctrl, s.trace⟩
    | Except.ok g =>
      let r := allocateLoop pol vds s.ctrl rest
      match r.result with
      | Except.error e => ⟨Except.error e, r.ctrl, s.trace ++ r.trace⟩
      | Except.ok gs => ⟨Except.ok (g :: gs), r.ctrl, s.trace ++ r.trace⟩

/-- A whole virtualized `Allocate` call with the ledger active
(`server.go` lines 407-532, granted-ID computation): reconcile against
the kubelet checkpoint once, then handle each container request. -/
def AllocateVirt (pol : Policy) (vds : List VDevice) (c : VDeviceController)
    (reqs : List (List String)) : AllocOut :=
  let r := allocateLoop pol vds c reqs
  ⟨r.result, r.ctrl, LedgerOp.checkpoint :: r.trace⟩

/-- State of the crash-restart supervisor inside `Serve` (`server.go`
lines 180-208): either still running with the current `restartCount`,
or terminated by `log.Fatalf`. -/
inductive ServeState where
  | running : Nat → ServeState
  | dead : ServeState
deriving Repr, DecidableEq

/-- One unexpected serve-call failure, given the seconds elapsed since
the previous crash (`time.Since(lastCrashTime).Seconds()`, modelled as
`ℚ`): first the fatal check `restartCount > 5`, then the gap test that
either resets the counter to 1 or increments it. -/
def crashStep (s : ServeState) (gap : ℚ) : ServeState :=
  match s with
  | ServeState.dead => ServeState.dead
  | ServeState.running rc =>
    if rc > 5 then ServeState.dead
    else ServeState.running (if gap > 3600 then 1 else rc + 1)

/-- The crash-restart loop over a sequence of serve failures, each given
by its gap to the previous crash; `restartCount` starts at 0. -/
def crashRun (gaps : List ℚ) : ServeState :=
  gaps.foldl crashStep (ServeState.running 0)

/-- The options message of the device plugin protocol (only the field
`server.go` sets). -/
structure DevicePluginOptions where
  GetPreferredAllocationAvailable : Bool
deriving Repr, DecidableEq

/-- `GetDevicePluginOptions` (`server.go` lines 246-251), with the
plugin state abstracted to whether an allocation policy is configured
(`m.allocatePolicy != nil`) and whether a binding ledger is active
(`m.vDeviceController != nil`).  The handler reads only the policy. -/
def GetDevicePluginOptions (allocatePolicySet _vDeviceControllerSet : Bool) :
    DevicePluginOptions :=
  ⟨allocatePolicySet⟩

/-- The options field of the `Register` request (`server.go` lines
229-236), over the same abstracted plugin state. -/
def registerOptions (allocatePolicySet vDeviceControllerSet : Bool) :
    DevicePluginOptions :=
  ⟨allocatePolicySet && !vDeviceControllerSet⟩

/-- Mark one physical device unhealthy: the `d.Health = pluginapi.Unhealthy`
mutation of the shared device record in `ListAndWatch` (`server.go`
line 263), keyed by device ID. -/
def setUnhealthy (devs : List Device) (id : String) : List Device :=
  devs.map (fun d => if d.ID = id then { d with Health := false } else d)

/-- Health of a cached physical device, by ID (`vd.dev.Health` through
the virtual device's back-reference). -/
def healthOf (devs : List Device) (id : String) : Bool :=
  match findDev devs id with
  | some d => d.Health
  | none => true

/-- `apiDevices` (`server.go` lines 583-596) as the emitted
`(deviceID, health)` list: under MIG strategy "none" the virtual devices
with health mirrored from the underlying physical device at read time,
otherwise the cached physical devices themselves. -/
def apiDevices (migStrategy : String) (devs : List Device)
    (vds : List VDevice) : List (String × Bool) :=
  if migStrategy = "none" then
    vds.map (fun vd => (vd.ID, healthOf devs vd.devID))
  else
    devs.map (fun d => (d.ID, d.Health))

/-- Apply a sequence of health-degradation events (device IDs received on
the health channel) to the cached devices. -/
def applyEvents (devs : List Device) (evs : List String) : List Device :=
  evs.foldl setUnhealthy devs

/-- The `n`-th device list emitted by one `ListAndWatch` session that
receives the health events `evs` in order: the list sent after the first
`n` events have been processed (`n = 0` is the initial emission). -/
def emission (migStrategy : String) (devs : List Device) (vds : List VDevice)
    (evs : List String) (n : Nat) : List (String × Bool) :=
  apiDevices migStrategy (applyEvents devs (evs.take n)) vds

/-- Look up the health shown for a device ID in an emitted list (first
entry with that ID). -/
def lookupHealth (id : String) : List (String × Bool) → Option Bool
  | [] => none
  | p :: rest => if p.1 = id then some p.2 else lookupHealth id rest

/-- Host path used by the volume-mounts device list strategy. -/
def deviceListAsVolumeMountsHostPath : String := "/dev/null"

/-- Container path root used by the volume-mounts device list strategy. -/
def deviceListAsVolumeMountsContainerPathRoot : String :=
  "/var/run/nvidia-container-devices"

/-- A mount entry of the device plugin protocol (the two fields
`server.go` sets in `apiMounts`). -/
structure Mount where
  ContainerPath : String
  HostPath : String
deriving Repr, DecidableEq

/-- `apiEnvs` (`server.go` lines 598-602): a single environment variable
holding the comma-joined device IDs. -/
def apiEnvs (envvar : String) (deviceIDs : List String) :
    List (String × String) :=
  [(envvar, joinSep "," deviceIDs)]

/-- `apiMounts` (`server.go` lines 604-616): one mount per device ID,
host path `/dev/null`, container path `<root>/<id>`. -/
def apiMounts : List String → List Mount
  | [] => []
  | id :: rest =>
    ⟨joinPath deviceListAsVolumeMountsContainerPathRoot id,
      deviceListAsVolumeMountsHostPath⟩ :: apiMounts rest

/-- Inner loop of the index branch of `deviceIDsFromUUIDs`: the index of
device `d`, once per occurrence of `d.ID` in `uuids`. -/
def indexMatches (d : Device) : List String → List String
  | [] => []
  | id :: rest =>
    if d.ID = id then d.Index :: indexMatches d rest else indexMatches d rest

/-- `deviceIDsFromUUIDs` (`server.go` lines 565-581): under the `uuid`
strategy the UUIDs unchanged, under the `index` strategy the cached
devices' indices gathered by the nested loops, otherwise empty. -/
def deviceIDsFromUUIDs (idStrategy : String) (cached : List Device) :
    List String → List String
  | uuids =>
    if idStrategy = "uuid" then uuids
    else if idStrategy = "index" then idsLoop cached uuids
    else []
where
  /-- Outer loop over the cached devices. -/
  idsLoop : List Device → List String → List String
    | [], _ => []
    | d :: rest, uuids => indexMatches d uuids ++ idsLoop rest uuids

/-- Environment variables and mounts of one container response, the part
of `Allocate` governed by the device list strategy. -/
structure EnvMount where
  Envs : List (String × String)
  Mounts : List Mount
deriving Repr, DecidableEq

/-- The device-list-strategy part of one virtualized `Allocate` container
response (`server.go` lines 459-475): resolve the granted virtual IDs,
collapse to unique physical UUIDs, translate per the device ID strategy,
then build the envvar or volume-mounts representation. -/
def buildEnvsMounts (strategy envvar idStrategy : String)
    (cached : List Device) (vds : List VDevice) (grantedIds : List String) :
    Option EnvMount :=
  match VDevicesByIDs vds grantedIds with
  | none => none
  | some vdevices =>
    let uuids := UniqueDeviceIDs vdevices
    let deviceIDs := deviceIDsFromUUIDs idStrategy cached uuids
    if strategy = "envvar" then some ⟨apiEnvs envvar deviceIDs, []⟩
    else if strategy = "volume-mounts" then
      some ⟨apiEnvs envvar [deviceListAsVolumeMountsContainerPathRoot],
        apiMounts deviceIDs⟩
    else some ⟨[], []⟩

/-- A device-node spec of the device plugin protocol. -/
structure DeviceSpec where
  ContainerPath : String
  HostPath : String
  Permissions : String
deriving Repr, DecidableEq

/-- The fixed control/UVM/modeset device-node paths checked by
`apiDeviceSpecs`. -/
def nvidiaFixedPaths : List String :=
  ["/dev/nvidiactl", "/dev/nvidia-uvm", "/dev/nvidia-uvm-tools",
    "/dev/nvidia-modeset"]

/-- First loop of `apiDeviceSpecs`: one spec per fixed path that exists
on the host filesystem (the per-call `os.Stat` check, modelled by the
predicate `fsExists`). -/
def fixedSpecs (fsExists : String → Bool) (driverRoot : String) :
    List String → List DeviceSpec
  | [] => []
  | p :: rest =>
    if fsExists p then
      ⟨p, joinPath driverRoot p, "rw"⟩ :: fixedSpecs fsExists driverRoot rest
    else fixedSpecs fsExists driverRoot rest

/-- One spec per device-node path. -/
def pathsSpecs (driverRoot : String) (ps : List String) : List DeviceSpec :=
  ps.map (fun p => ⟨p, joinPath driverRoot p, "rw"⟩)

/-- Inner loop of the second part of `apiDeviceSpecs`: for each
occurrence of `d.ID` among the granted UUIDs, the specs of all of `d`'s
device-node paths. -/
def deviceMatchSpecs (driverRoot : String) (d : Device) :
    List String → List DeviceSpec
  | [] => []
  | id :: rest =>
    if d.ID = id then
      pathsSpecs driverRoot d.Paths ++ deviceMatchSpecs driverRoot d rest
    else deviceMatchSpecs driverRoot d rest

/-- Outer loop of the second part of `apiDeviceSpecs`, over the cached
devices. -/
def deviceSpecsLoop (driverRoot : String) :
    List Device → List String → List DeviceSpec
  | [], _ => []
  | d :: rest, uuids =>
    deviceMatchSpecs driverRoot d uuids ++ deviceSpecsLoop driverRoot rest uuids

/-- `apiDeviceSpecs` (`server.go` lines 618-655): specs for the fixed
device nodes that exist at call time, then specs for every device-node
path of each granted physical device; container path is the node path,
host path is the node path joined under the driver root. -/
def apiDeviceSpecs (fsExists : String → Bool) (driverRoot : String)
    (cached : List Device) (uuids : List String) : List DeviceSpec :=
  fixedSpecs fsExists driverRoot nvidiaFixedPaths ++
    deviceSpecsLoop driverRoot cached uuids

/-- The node paths contributed by the granted devices, used to state the
shape of `apiDeviceSpecs` declaratively. -/
def matchPaths (d : Device) : List String → List String
  | [] => []
  | id :: rest =>
    if d.ID = id then d.Paths ++ matchPaths d rest else matchPaths d rest

/-- All node paths of all granted devices, in `apiDeviceSpecs` order. -/
def grantedNodePaths : List Device → List String → List String
  | [], _ => []
  | d :: rest, uuids => matchPaths d uuids ++ grantedNodePaths rest uuids

/-- A policy that always returns the empty selection, used as a concrete
input. -/
def emptyPolicy : Policy := fun _ _ _ => []

/-- Concrete virtual devices: one slice per distinct physical device. -/
def vdsTwoPhys : List VDevice :=
  [⟨"v1", 1024, "p1"⟩, ⟨"v2", 1024, "p2"⟩]

/-- Concrete virtual devices: two slices of one physical device. -/
def vdsOnePhys : List VDevice :=
  [⟨"v1", 1024, "p1"⟩, ⟨"v2", 1024, "p1"⟩]

/-- A concrete ledger holding both IDs of `vdsTwoPhys`, with one entry
binding `v1` under request key `["r1", "r2"]`. -/
def ctrlBound : VDeviceController :=
  ⟨["v1", "v2"], [(["r1", "r2"], ["v1"])]⟩

/-- A concrete empty ledger over one virtual device. -/
def ctrlFree : VDeviceController := ⟨["v1"], []⟩

/-- A concrete empty ledger over two virtual devices. -/
def ctrlFree2 : VDeviceController := ⟨["v1", "v2"], []⟩

/-- A concrete ledger over one virtual device whose single ID is bound
under request key `["r1", "r2"]`. -/
def ctrlOneBound : VDeviceController := ⟨["v1"], [(["r1", "r2"], ["v1"])]⟩

/-- A concrete host filesystem on which only `/dev/nvidiactl` exists. -/
def fsCtlOnly : String → Bool := fun p => decide (p = "/dev/nvidiactl")

/-- Concrete cached physical devices for the health-loop witness. -/
def devsHealthy : List Device := [⟨"p1", "0", [], true⟩]

/-- Concrete virtual device backed by `devsHealthy` for the health-loop
witness. -/
def vdsHealthy : List VDevice := [⟨"w1", 1024, "p1"⟩]

theorem crashStep_zero (g : ℚ) :
    crashStep (ServeState.running 0) g = ServeState.running 1 := by
  simp [crashStep]

theorem crashStep_incr (rc : Nat) (g : ℚ) (h1 : rc ≤ 5) (h2 : g ≤ 3600) :
    crashStep (ServeState.running rc) g = ServeState.running (rc + 1) := by
  have hx : ¬ rc > 5 := by omega
  have hy : ¬ g > 3600 := not_lt.mpr h2
  simp [crashStep, hx, hy]

theorem crashStep_reset (rc : Nat) (g : ℚ) (h1 : rc ≤ 5) (h2 : 3600 < g) :
    crashStep (ServeState.running rc) g = ServeState.running 1 := by
  have hx : ¬ rc > 5 := by omega
  simp [crashStep, hx, h2]

theorem crashStep_fatal (rc : Nat) (g : ℚ) (h : 5 < rc) :
    crashStep (ServeState.running rc) g = ServeState.dead := by
  simp [crashStep, h]

/-- C2, counterexample to the second half of the claim: after six crashes
with no long gap, a seventh crash whose gap to the sixth exceeds 3600
seconds still terminates the process, because the fatal check
`restartCount > 5` runs before the gap-based reset. -/
theorem C2_counterexample :
    crashRun [0, 0, 0, 0, 0, 0, 4000] = ServeState.dead ∧ (3600 : ℚ) < 4000 := by
  constructor
  · show List.foldl crashStep (ServeState.running 0) _ = _
    have s1 := crashStep_zero (0 : ℚ)
    have s2 : crashStep (ServeState.running 1) (0 : ℚ) = ServeState.running 2 :=
      crashStep_incr 1 0 (by omega) (by norm_num)
    have s3 : crashStep (ServeState.running 2) (0 : ℚ) = ServeState.running 3 :=
      crashStep_incr 2 0 (by omega) (by norm_num)
    have s4 : crashStep (ServeState.running 3) (0 : ℚ) = ServeState.running 4 :=
      crashStep_incr 3 0 (by omega) (by norm_num)
    have s5 : crashStep (ServeState.running 4) (0 : ℚ) = ServeState.running 5 :=
      crashStep_incr 4 0 (by omega) (by norm_num)
    have s6 : crashStep (ServeState.running 5) (0 : ℚ) = ServeState.running 6 :=
      crashStep_incr 5 0 (by omega) (by norm_num)
    have s7 : crashStep (ServeState.running 6) (4000 : ℚ) = ServeState.dead :=
      crashStep_fatal 6 4000 (by omega)
    simp [List.foldl, s1, s2, s3, s4, s5, s6, s7]
  · norm_num

/-- C2, amended: seven consecutive serve failures whose gaps 2..6 do not
exceed 3600 seconds terminate the process at the seventh failure,
whatever the gap before the seventh (in particular both when it is
within 3600 seconds and when it exceeds 3600 seconds, since the fatal
check precedes the gap test); the >3600-second reset to 1 applies only
while the counter is still at most 5. -/
theorem C2_theorem :
    (∀ g1 g2 g3 g4 g5 g6 g7 : ℚ, g2 ≤ 3600 → g3 ≤ 3600 → g4 ≤ 3600 →
      g5 ≤ 3600 → g6 ≤ 3600 →
      crashRun [g1, g2, g3, g4, g5, g6, g7] = ServeState.dead)
    ∧ (∀ rc : Nat, rc ≤ 5 → ∀ g : ℚ, 3600 < g →
      crashStep (ServeState.running rc) g = ServeState.running 1) := by
  constructor
  · intro g1 g2 g3 g4 g5 g6 g7 h2 h3 h4 h5 h6
    show List.foldl crashStep (ServeState.running 0) _ = _
    have s1 := crashStep_zero g1
    have s2 : crashStep (ServeState.running 1) g2 = ServeState.running 2 :=
      crashStep_incr 1 g2 (by omega) h2
    have s3 : crashStep (ServeState.running 2) g3 = ServeState.running 3 :=
      crashStep_incr 2 g3 (by omega) h3
    have s4 : crashStep (ServeState.running 3) g4 = ServeState.running 4 :=
      crashStep_incr 3 g4 (by omega) h4
    have s5 : crashStep (ServeState.running 4) g5 = ServeState.running 5 :=
      crashStep_incr 4 g5 (by omega) h5
    have s6 : crashStep (ServeState.running 5) g6 = ServeState.running 6 :=
      crashStep_incr 5 g6 (by omega) h6
    have s7 : crashStep (ServeState.running 6) g7 = ServeState.dead :=
      crashStep_fatal 6 g7 (by omega)
    simp [List.foldl, s1, s2, s3, s4, s5, s6, s7]
  · intro rc hrc g hg
    exact crashStep_reset rc g hrc hg

/-- C2, witness: seven failures with every gap at most 3600 seconds end
in process termination, and a long gap while the counter is at 3 resets
it to 1. -/
theorem C2_witness :
    crashRun [0, 0, 0, 0, 0, 0, 0] = ServeState.dead ∧
      crashStep (ServeState.running 3) 4000 = ServeState.running 1 :=
  ⟨C2_theorem.1 0 0 0 0 0 0 0 (by norm_num) (by norm_num) (by norm_num)
      (by norm_num) (by norm_num),
    C2_theorem.2 3 (by norm_num) 4000 (by norm_num)⟩

/-- C4, counterexample: with an allocation policy configured and a
binding ledger active, `GetDevicePluginOptions` still reports preferred
allocation as available, whereas the claim requires it to report
`policy ∧ no ledger`, i.e. `false`. -/
theorem C4_counterexample :
    ¬ ((GetDevicePluginOptions true true).GetPreferredAllocationAvailable =
      (true && !true)) := by decide

/-- C4, amended: `GetDevicePluginOptions` reports preferred allocation
as available exactly when an allocation policy is configured, ignoring
the binding ledger; it is the `Register` request that advertises the
capability as `policy configured ∧ no ledger active`. -/
theorem C4_theorem :
    ∀ p c : Bool,
      (GetDevicePluginOptions p c).GetPreferredAllocationAvailable = p ∧
        (registerOptions p c).GetPreferredAllocationAvailable = (p && !c) := by
  decide

/-- C6: `GetPreferredAllocation` on a session whose MIG strategy is
"mixed" returns a nil response and a nil error (`Except.ok none`), for
every policy, device set and input request list. -/
theorem C6_theorem :
    ∀ (pol : Policy) (vds : List VDevice)
      (reqs : List (List String × List String × Nat)),
      GetPreferredAllocationRPC "mixed" pol vds reqs = Except.ok none := by
  intro pol vds reqs
  simp [GetPreferredAllocationRPC]

/-- C1, counterexample: a virtualized `Allocate` call that fails the
availability check does fail with the "no enough devices" error, but it
has already committed a release to the binding ledger: the ledger state
after the failing call differs from the state before it, and the trace
contains the release of the request key. -/
theorem C1_counterexample :
    (AllocateVirt emptyPolicy vdsTwoPhys ctrlOneBound [["r1", "r2"]]).result =
        Except.error "no enough devices" ∧
      (AllocateVirt emptyPolicy vdsTwoPhys ctrlOneBound [["r1", "r2"]]).ctrl ≠
        ctrlOneBound ∧
      LedgerOp.release ["r1", "r2"] ∈
        (AllocateVirt emptyPolicy vdsTwoPhys ctrlOneBound [["r1", "r2"]]).trace := by
  decide

/-- C1, amended: when the available virtual IDs reported by the ledger
after the request's own release are fewer than the requested count, the
container request fails with the "no enough devices" error and commits
no acquire; the release of any binding recorded under the request key
has however already been committed before the check, so the failing
request's only ledger operations are that release (and the checkpoint
reconciliation that precedes the per-request loop). -/
theorem C1_theorem (pol : Policy) (vds : List VDevice) (c : VDeviceController)
    (k : List String)
    (h : (availableIdsOf (releaseByRequest c k)).length < k.length) :
    allocateOne pol vds c k =
      ⟨Except.error "no enough devices", releaseByRequest c k,
        [LedgerOp.release k]⟩ := by
  unfold allocateOne allocateAfterRelease
  simp [h]

/-- C1, witness: a concrete request for three devices against a ledger
with only one free ID fails with the error and a single release in the
trace. -/
theorem C1_witness :
    allocateOne emptyPolicy vdsTwoPhys ctrlBound ["r1", "r2", "r3"] =
      ⟨Except.error "no enough devices",
        releaseByRequest ctrlBound ["r1", "r2", "r3"],
        [LedgerOp.release ["r1", "r2", "r3"]]⟩ :=
  C1_theorem emptyPolicy vdsTwoPhys ctrlBound ["r1", "r2", "r3"] (by decide)

theorem setUnhealthy_cons (d : Device) (rest : List Device) (e : String) :
    setUnhealthy (d :: rest) e =
      (if d.ID = e then { d with Health := false } else d) ::
        setUnhealthy rest e := by
  simp [setUnhealthy]

theorem findDev_setUnhealthy (devs : List Device) (e x : String) :
    findDev (setUnhealthy devs e) x =
      Option.map (fun d => if d.ID = e then { d with Health := false } else d)
        (findDev devs x) := by
  induction devs with
  | nil => rfl
  | cons d rest ih =>
    rw [setUnhealthy_cons]
    by_cases hde : d.ID = e
    · rw [if_pos hde]
      simp only [findDev]
      by_cases hdx : d.ID = x
      · rw [if_pos (show ({ d with Health := false } : Device).ID = x from hdx),
          if_pos hdx]
        simp only [Option.map]
        rw [if_pos hde]
      · rw [if_neg (show ¬ ({ d with Health := false } : Device).ID = x from hdx),
          if_neg hdx]
        exact ih
    · rw [if_neg hde]
      simp only [findDev]
      by_cases hdx : d.ID = x
      · rw [if_pos hdx, if_pos hdx]
        simp only [Option.map]
        rw [if_neg hde]
      · rw [if_neg hdx, if_neg hdx]
        exact ih

theorem healthOf_setUnhealthy (devs : List Device) (e x : String)
    (h : healthOf devs x = false) :
    healthOf (setUnhealthy devs e) x = false := by
  unfold healthOf at h ⊢
  rw [findDev_setUnhealthy]
  cases hfd : findDev devs x with
  | none => rw [hfd] at h; simp at h
  | some d =>
    rw [hfd] at h
    simp only [Option.map]
    by_cases hde : d.ID = e
    · rw [if_pos hde]
    · rw [if_neg hde]
      exact h

theorem lookupHealth_map_vds (devs : List Device) (vds : List VDevice)
    (e vid : String)
    (h : lookupHealth vid
      (vds.map (fun vd => (vd.ID, healthOf devs vd.devID))) = some false) :
    lookupHealth vid
      (vds.map (fun vd => (vd.ID, healthOf (setUnhealthy devs e) vd.devID))) =
      some false := by
  induction vds with
  | nil => simp [lookupHealth] at h
  | cons vd rest ih =>
    by_cases hv : vd.ID = vid
    · simp [lookupHealth, hv] at h ⊢
      exact healthOf_setUnhealthy devs e vd.devID h
    · simp [lookupHealth, hv] at h ⊢
      exact ih h

theorem lookupHealth_map_devs (devs : List Device) (e vid : String)
    (h : lookupHealth vid (devs.map (fun d => (d.ID, d.Health))) = some false) :
    lookupHealth vid
      ((setUnhealthy devs e).map (fun d => (d.ID, d.Health))) = some false := by
  induction devs with
  | nil => simp [lookupHealth] at h
  | cons d rest ih =>
    rw [setUnhealthy_cons]
    simp only [List.map_cons, lookupHealth] at h ⊢
    by_cases hde : d.ID = e
    · rw [if_pos hde]
      by_cases hdx : d.ID = vid
      · rw [if_pos (show ({ d with Health := false } : Device).ID = vid from hdx)]
      · rw [if_neg (show ¬ ({ d with Health := false } : Device).ID = vid from hdx)]
        rw [if_neg hdx] at h
        exact ih h
    · rw [if_neg hde]
      by_cases hdx : d.ID = vid
      · rw [if_pos hdx] at h ⊢
        exact h
      · rw [if_neg hdx] at h ⊢
        exact ih h

theorem lookupHealth_apiDevices_step (mig : String) (devs : List Device)
    (vds : List VDevice) (e vid : String)
    (h : lookupHealth vid (apiDevices mig devs vds) = some false) :
    lookupHealth vid (apiDevices mig (setUnhealthy devs e) vds) = some false := by
  unfold apiDevices at h ⊢
  by_cases hm : mig = "none"
  · simp only [hm, if_pos] at h ⊢
    exact lookupHealth_map_vds devs vds e vid h
  · simp only [hm, if_neg, if_false] at h ⊢
    exact lookupHealth_map_devs devs e vid h

theorem lookupHealth_applyEvents (mig : String) (devs : List Device)
    (vds : List VDevice) (vid : String) (t : List String)
    (h : lookupHealth vid (apiDevices mig devs vds) = some false) :
    lookupHealth vid (apiDevices mig (applyEvents devs t) vds) = some false := by
  induction t generalizing devs with
  | nil => exact h
  | cons e rest ih =>
    show lookupHealth vid
      (apiDevices mig (List.foldl setUnhealthy devs (e :: rest)) vds) = some false
    rw [List.foldl_cons]
    exact ih (setUnhealthy devs e) (lookupHealth_apiDevices_step mig devs vds e vid h)

theorem applyEvents_append (devs : List Device) (a b : List String) :
    applyEvents devs (a ++ b) = applyEvents (applyEvents devs a) b := by
  simp [applyEvents, List.foldl_append]

/-- C7: in a `ListAndWatch` session, once an emitted device list shows a
device as Unhealthy, every later emission of the same session shows it
Unhealthy as well — health events only ever set a device to Unhealthy
and nothing in the session sets one back to Healthy. -/
theorem C7_theorem (mig : String) (devs : List Device) (vds : List VDevice)
    (evs : List String) (n m : Nat) (vid : String) (hnm : n ≤ m)
    (h : lookupHealth vid (emission mig devs vds evs n) = some false) :
    lookupHealth vid (emission mig devs vds evs m) = some false := by
  have hdecomp : evs.take m = evs.take n ++ (evs.take m).drop n := by
    conv_lhs => rw [← List.take_append_drop n (evs.take m)]
    rw [List.take_take, min_eq_left hnm]
  unfold emission at h ⊢
  rw [hdecomp, applyEvents_append]
  exact lookupHealth_applyEvents mig (applyEvents devs (evs.take n)) vds vid
    ((evs.take m).drop n) h

/-- C7, witness: after the health event for the physical device `p1`,
the second and all later emissions show the virtual device `w1` as
Unhealthy. -/
theorem C7_witness :
    lookupHealth "w1" (emission "none" devsHealthy vdsHealthy ["p1"] 2) =
      some false :=
  C7_theorem "none" devsHealthy vdsHealthy ["p1"] 1 2 "w1" (by decide) (by decide)

theorem apiMounts_eq_map (ids : List String) :
    apiMounts ids = ids.map (fun id =>
      Mount.mk (joinPath deviceListAsVolumeMountsContainerPathRoot id)
        deviceListAsVolumeMountsHostPath) := by
  induction ids with
  | nil => rfl
  | cons x xs ih => simp [apiMounts, ih]

/-- C8, counterexample: under the volume-mounts strategy with granted
virtual-device IDs `["v1", "v2"]` (on distinct physical devices `p1`,
`p2`, UUID device-ID strategy), the mounts' container paths are built
from the underlying physical identifiers, `<root>/p1` and `<root>/p2`,
not from the virtual IDs `<root>/v1` and `<root>/v2` as the claim
states; host paths and the environment variable are as claimed. -/
theorem C8_counterexample :
    buildEnvsMounts "volume-mounts" "NVD" "uuid" [] vdsTwoPhys ["v1", "v2"] =
      some ⟨[("NVD", "/var/run/nvidia-container-devices")],
        [⟨"/var/run/nvidia-container-devices/p1", "/dev/null"⟩,
          ⟨"/var/run/nvidia-container-devices/p2", "/dev/null"⟩]⟩ ∧
      ("/var/run/nvidia-container-devices/p1" : String) ≠
        "/var/run/nvidia-container-devices/v1" := by
  decide

/-- C8, amended: under the volume-mounts strategy a response for granted
virtual devices has one mount per entry of the device-ID list derived
from the granted slices' unique underlying physical identifiers (per
the device-ID strategy), each with container path `<root>/<id>` and
host path `/dev/null`, and the device-list environment variable holds
exactly `<root>`, not the device IDs. -/
theorem C8_theorem (envvar idStrategy : String) (cached : List Device)
    (vds : List VDevice) (grantedIds : List String) (vdevices : List VDevice)
    (h : VDevicesByIDs vds grantedIds = some vdevices) :
    buildEnvsMounts "volume-mounts" envvar idStrategy cached vds grantedIds =
      some ⟨[(envvar, "/var/run/nvidia-container-devices")],
        (deviceIDsFromUUIDs idStrategy cached (UniqueDeviceIDs vdevices)).map
          (fun id =>
            Mount.mk (joinPath "/var/run/nvidia-container-devices" id)
              "/dev/null")⟩ := by
  unfold buildEnvsMounts
  rw [h]
  simp [apiEnvs, joinSep, apiMounts_eq_map,
    deviceListAsVolumeMountsContainerPathRoot, deviceListAsVolumeMountsHostPath]

/-- C8, witness: the amended statement evaluated on two granted virtual
devices backed by two distinct physical devices. -/
theorem C8_witness :
    buildEnvsMounts "volume-mounts" "ND" "uuid" [] vdsTwoPhys ["v1", "v2"] =
      some ⟨[("ND", "/var/run/nvidia-container-devices")],
        (deviceIDsFromUUIDs "uuid" []
            (UniqueDeviceIDs [⟨"v1", 1024, "p1"⟩, ⟨"v2", 1024, "p2"⟩])).map
          (fun id =>
            Mount.mk (joinPath "/var/run/nvidia-container-devices" id)
              "/dev/null")⟩ :=
  C8_theorem "ND" "uuid" [] vdsTwoPhys ["v1", "v2"]
    [⟨"v1", 1024, "p1"⟩, ⟨"v2", 1024, "p2"⟩] (by decide)

theorem fixedSpecs_eq (fs : String → Bool) (root : String) (ps : List String) :
    fixedSpecs fs root ps = (ps.filter fs).map
      (fun p => DeviceSpec.mk p (joinPath root p) "rw") := by
  induction ps with
  | nil => rfl
  | cons p rest ih =>
    by_cases hp : fs p = true <;> simp [fixedSpecs, List.filter_cons, hp, ih]

theorem deviceMatchSpecs_eq (root : String) (d : Device) (ids : List String) :
    deviceMatchSpecs root d ids = (matchPaths d ids).map
      (fun p => DeviceSpec.mk p (joinPath root p) "rw") := by
  induction ids with
  | nil => rfl
  | cons i rest ih =>
    by_cases hi : d.ID = i <;>
      simp [deviceMatchSpecs, matchPaths, hi, ih, pathsSpecs]

theorem deviceSpecsLoop_eq (root : String) (cached : List Device)
    (uuids : List String) :
    deviceSpecsLoop root cached uuids = (grantedNodePaths cached uuids).map
      (fun p => DeviceSpec.mk p (joinPath root p) "rw") := by
  induction cached with
  | nil => rfl
  | cons d rest ih =>
    simp [deviceSpecsLoop, grantedNodePaths, deviceMatchSpecs_eq, ih]

/-- C9, counterexample: with driver root `/custom` and only
`/dev/nvidiactl` present on the host, the produced spec's container path
is the raw node path `/dev/nvidiactl`, which is not expressed relative
to the driver root (it does not start with `/custom`); only the host
path is joined under the driver root. -/
theorem C9_counterexample :
    apiDeviceSpecs fsCtlOnly "/custom" [] [] =
      [⟨"/dev/nvidiactl", "/custom/dev/nvidiactl", "rw"⟩] ∧
      strStartsWith "/dev/nvidiactl" "/custom" = false := by
  decide

/-- C9, amended: `apiDeviceSpecs` returns exactly one spec for each
fixed control/UVM/modeset node that exists on the host at call time,
followed by one spec per device-node path recorded for each granted
physical device; every spec has permissions `rw`, its container path is
the raw node path, and its host path is the node path joined under the
configured driver root (only host paths are driver-root relative). -/
theorem C9_theorem (fs : String → Bool) (root : String)
    (cached : List Device) (uuids : List String) :
    apiDeviceSpecs fs root cached uuids =
      ((nvidiaFixedPaths.filter fs) ++ grantedNodePaths cached uuids).map
        (fun p => DeviceSpec.mk p (joinPath root p) "rw") ∧
      ∀ s ∈ apiDeviceSpecs fs root cached uuids,
        s.HostPath = joinPath root s.ContainerPath ∧ s.Permissions = "rw" := by
  have he : apiDeviceSpecs fs root cached uuids =
      ((nvidiaFixedPaths.filter fs) ++ grantedNodePaths cached uuids).map
        (fun p => DeviceSpec.mk p (joinPath root p) "rw") := by
    unfold apiDeviceSpecs
    rw [fixedSpecs_eq, deviceSpecsLoop_eq, List.map_append]
  refine ⟨he, ?_⟩
  intro s hs
  rw [he] at hs
  rcases List.mem_map.mp hs with ⟨p, _, rfl⟩
  exact ⟨rfl, rfl⟩

/-- C9, witness: the amended statement applied to the concrete call with
driver root `/custom`, picking out the single produced spec. -/
theorem C9_witness :
    (DeviceSpec.mk "/dev/nvidiactl" "/custom/dev/nvidiactl" "rw").HostPath =
        joinPath "/custom" "/dev/nvidiactl" ∧
      (DeviceSpec.mk "/dev/nvidiactl" "/custom/dev/nvidiactl" "rw").Permissions =
        "rw" :=
  (C9_theorem fsCtlOnly "/custom" [] []).2
    ⟨"/dev/nvidiactl", "/custom/dev/nvidiactl", "rw"⟩ (by decide)

theorem removeKey_idem (k : List String)
    (l : List (List String × List String)) :
    removeKey k (removeKey k l) = removeKey k l := by
  induction l with
  | nil => rfl
  | cons e rest ih =>
    by_cases he : e.1 = k
    · simp [removeKey, he, ih]
    · simp [removeKey, he, ih]

theorem removeKey_cons_self (k g : List String)
    (l : List (List String × List String)) :
    removeKey k ((k, g) :: l) = removeKey k l := by
  simp [removeKey]

theorem release_acquire (c : VDeviceController) (k g : List String) :
    releaseByRequest (acquire c k g) k = releaseByRequest c k := by
  simp [releaseByRequest, acquire, removeKey_cons_self, removeKey_idem]

theorem release_release (c : VDeviceController) (k : List String) :
    releaseByRequest (releaseByRequest c k) k = releaseByRequest c k := by
  simp [releaseByRequest, removeKey_idem]

theorem acquire_acquire (c : VDeviceController) (k g : List String) :
    acquire (acquire c k g) k g = acquire c k g := by
  simp [acquire, removeKey_cons_self, removeKey_idem]

theorem allocateAfterRelease_ok (pol : Policy) (vds : List VDevice)
    (c1 : VDeviceController) (k g : List String) (c2 : VDeviceController)
    (t : List LedgerOp)
    (h : allocateAfterRelease pol vds c1 k = ⟨Except.ok g, c2, t⟩) :
    ¬ (availableIdsOf c1).length < k.length ∧
      g.length = k.length ∧
      c2 = acquire (acquire c1 k g) k g ∧
      t = [LedgerOp.release k, LedgerOp.acq k g, LedgerOp.acq k g] := by
  unfold allocateAfterRelease at h
  split at h
  case isTrue hlt => simp at h
  case isFalse hge =>
    split at h
    case h_1 => simp at h
    case h_2 preferIds hpref =>
      split at h
      case h_1 => simp at h
      case h_2 vdevs hvd =>
        simp only [AllocStep.mk.injEq, Except.ok.injEq] at h
        obtain ⟨hg, hc2, ht⟩ := h
        subst hg
        refine ⟨hge, ?_, hc2.symm, ht.symm⟩
        unfold grantedOf
        split
        case isTrue hl => exact hl
        case isFalse hl =>
          rw [List.length_take]
          omega

/-- C5: a repeated virtualized `Allocate` container request with the
same original device IDs is idempotent on the binding ledger: run again
from the state a successful run left behind, it produces the same grant,
the same final ledger state (so the committed total of bound virtual IDs
is not doubled), and its trace releases the binding recorded under the
request key before the acquires. -/
theorem C5_theorem (pol : Policy) (vds : List VDevice) (c : VDeviceController)
    (k g : List String) (c1 : VDeviceController) (t : List LedgerOp)
    (h : allocateOne pol vds c k = ⟨Except.ok g, c1, t⟩) :
    allocateOne pol vds c1 k = ⟨Except.ok g, c1, t⟩ ∧
      t = [LedgerOp.release k, LedgerOp.acq k g, LedgerOp.acq k g] := by
  obtain ⟨hge, hlen, hc2, ht⟩ :=
    allocateAfterRelease_ok pol vds (releaseByRequest c k) k g c1 t h
  refine ⟨?_, ht⟩
  show allocateAfterRelease pol vds (releaseByRequest c1 k) k = _
  have hrel : releaseByRequest c1 k = releaseByRequest c k := by
    rw [hc2, release_acquire, release_acquire, release_release]
  rw [hrel]
  exact h

/-- C5, witness: a second identical request replayed against the ledger
state of a successful first request returns the same grant and the same
ledger state. -/
theorem C5_witness :
    allocateOne emptyPolicy [⟨"v1", 1024, "p1"⟩]
        ⟨["v1"], [(["r1"], ["v1"])]⟩ ["r1"] =
      ⟨Except.ok ["v1"], ⟨["v1"], [(["r1"], ["v1"])]⟩,
        [LedgerOp.release ["r1"], LedgerOp.acq ["r1"] ["v1"],
          LedgerOp.acq ["r1"] ["v1"]]⟩ :=
  (C5_theorem emptyPolicy [⟨"v1", 1024, "p1"⟩] ctrlFree ["r1"] ["v1"]
    ⟨["v1"], [(["r1"], ["v1"])]⟩
    [LedgerOp.release ["r1"], LedgerOp.acq ["r1"] ["v1"],
      LedgerOp.acq ["r1"] ["v1"]] (by decide)).1

/-- C10: every successfully allocated container request in virtualized
mode invokes the ledger's acquire exactly twice with identical
arguments — the original request IDs and the final granted IDs — once
right after device selection and once while recording the response
annotations; the resulting ledger state is the one a single acquire
would produce, which is exactly why acquire must be idempotent for
identical arguments. -/
theorem C10_theorem (pol : Policy) (vds : List VDevice)
    (c : VDeviceController) (k g : List String) (c1 : VDeviceController)
    (t : List LedgerOp)
    (h : allocateOne pol vds c k = ⟨Except.ok g, c1, t⟩) :
    t.filter isAcq = [LedgerOp.acq k g, LedgerOp.acq k g] ∧
      c1 = acquire (releaseByRequest c k) k g := by
  obtain ⟨hge, hlen, hc2, ht⟩ :=
    allocateAfterRelease_ok pol vds (releaseByRequest c k) k g c1 t h
  constructor
  · rw [ht]
    simp [isAcq, List.filter]
  · rw [hc2, acquire_acquire]

/-- C10, witness: the double acquire of a concrete successful request,
with its collapse to a single-acquire ledger state. -/
theorem C10_witness :
    ([LedgerOp.release ["s1"], LedgerOp.acq ["s1"] ["u1"],
        LedgerOp.acq ["s1"] ["u1"]].filter isAcq =
      [LedgerOp.acq ["s1"] ["u1"], LedgerOp.acq ["s1"] ["u1"]]) ∧
      (⟨["u1"], [(["s1"], ["u1"])]⟩ : VDeviceController) =
        acquire (releaseByRequest ⟨["u1"], []⟩ ["s1"]) ["s1"] ["u1"] :=
  C10_theorem emptyPolicy [⟨"u1", 2048, "q1"⟩] ⟨["u1"], []⟩ ["s1"] ["u1"]
    ⟨["u1"], [(["s1"], ["u1"])]⟩
    [LedgerOp.release ["s1"], LedgerOp.acq ["s1"] ["u1"],
      LedgerOp.acq ["s1"] ["u1"]] (by decide)

theorem mem_uniqueAux (d : String) (vds : List VDevice) :
    ∀ acc : List String, d ∈ uniqueAux vds acc →
      d ∈ acc ∨ ∃ vd, vd ∈ vds ∧ vd.devID = d := by
  induction vds with
  | nil =>
    intro acc h
    exact Or.inl (by simpa [uniqueAux] using h)
  | cons vd rest ih =>
    intro acc h
    unfold uniqueAux at h
    split at h
    · rcases ih acc h with h1 | ⟨w, hw, he⟩
      · exact Or.inl h1
      · exact Or.inr ⟨w, List.mem_cons_of_mem _ hw, he⟩
    · rcases ih (acc ++ [vd.devID]) h with h1 | ⟨w, hw, he⟩
      · rcases List.mem_append.mp h1 with h2 | h2
        · exact Or.inl h2
        · have hd : d = vd.devID := by simpa using h2
          exact Or.inr ⟨vd, List.mem_cons_self vd rest, hd.symm⟩
      · exact Or.inr ⟨w, List.mem_cons_of_mem _ hw, he⟩

theorem mem_UniqueDeviceIDs (d : String) (vds : List VDevice)
    (h : d ∈ UniqueDeviceIDs vds) : ∃ vd, vd ∈ vds ∧ vd.devID = d := by
  rcases mem_uniqueAux d vds [] h with h1 | h2
  · cases h1
  · exact h2

theorem findVDByDev_mem (d : String) (vds : List VDevice)
    (h : ∃ vd, vd ∈ vds ∧ vd.devID = d) : (findVDByDev d vds).isSome := by
  induction vds with
  | nil =>
    rcases h with ⟨vd, hm, _⟩
    cases hm
  | cons v rest ih =>
    unfold findVDByDev
    by_cases hv : v.devID = d
    · simp [hv]
    · simp only [hv, if_false]
      apply ih
      rcases h with ⟨vd, hm, he⟩
      rcases List.mem_cons.mp hm with rfl | hm2
      · exact absurd he hv
      · exact ⟨vd, hm2, he⟩

theorem mapBack_length (availableVDev : List VDevice)
    (allocated : List String)
    (h : ∀ d ∈ allocated, (findVDByDev d availableVDev).isSome) :
    (mapBack availableVDev allocated).length = allocated.length := by
  induction allocated with
  | nil => rfl
  | cons d rest ih =>
    have hd := h d (List.mem_cons_self d rest)
    unfold mapBack
    cases hfd : findVDByDev d availableVDev with
    | none => rw [hfd] at hd; simp at hd
    | some vd =>
      show (vd.ID :: mapBack availableVDev rest).length = (d :: rest).length
      simp only [List.length_cons]
      rw [ih (fun x hx => h x (List.mem_cons_of_mem _ hx))]

/-- C3, counterexample: a `GetPreferredAllocation` container request
whose stated available virtual-device set has size 2 (equal to the
requested count), but whose two slices share one physical device,
returns zero granted IDs when the policy returns the empty selection:
the fallback compares the requested count against the number of unique
underlying physical devices, not against the number of available
virtual devices. -/
theorem C3_counterexample :
    (getPreferredAllocationOne emptyPolicy vdsOnePhys ["v1", "v2"] []
        2).map List.length ≠ some 2 ∧
      (VDevicesByIDs vdsOnePhys ["v1", "v2"]).map List.length = some 2 := by
  decide

/-- C3, amended: (1) a `GetPreferredAllocation` container request whose
available set resolves returns exactly `count` granted IDs when the
policy returns the empty selection, provided the number of *unique
underlying physical devices* of the available set is at least `count`
(the fallback then takes the first `count` unique physical devices in
their given order); (2) a virtualized `Allocate` container request that
succeeds always grants exactly as many virtual-device IDs as were
requested. -/
theorem C3_theorem :
    (∀ (pol : Policy) (vds : List VDevice) (availIds mustIds : List String)
        (count : Nat) (availableVDev requiredVDev : List VDevice),
      VDevicesByIDs vds availIds = some availableVDev →
      VDevicesByIDs vds mustIds = some requiredVDev →
      pol (UniqueDeviceIDs availableVDev) (UniqueDeviceIDs requiredVDev)
          count = [] →
      count ≤ (UniqueDeviceIDs availableVDev).length →
      (getPreferredAllocationOne pol vds availIds mustIds count).map
          List.length = some count)
    ∧ (∀ (pol : Policy) (vds : List VDevice) (c : VDeviceController)
        (k g : List String) (c1 : VDeviceController) (t : List LedgerOp),
      allocateOne pol vds c k = ⟨Except.ok g, c1, t⟩ →
      g.length = k.length) := by
  constructor
  · intro pol vds availIds mustIds count aV rV h1 h2 hp hc
    have heq : getPreferredAllocationOne pol vds availIds mustIds count =
        some (mapBack aV ((UniqueDeviceIDs aV).take count)) := by
      unfold getPreferredAllocationOne
      rw [h1, h2]
      simp [hp, hc]
    rw [heq]
    simp only [Option.map]
    congr 1
    rw [mapBack_length]
    · rw [List.length_take]
      omega
    · intro d hd
      exact findVDByDev_mem d aV
        (mem_UniqueDeviceIDs d aV (List.take_subset count _ hd))
  · intro pol vds c k g c1 t h
    exact (allocateAfterRelease_ok pol vds (releaseByRequest c k) k g c1 t
      h).2.1

/-- C3, witness: the first part evaluated on two virtual devices backed
by two distinct physical devices with an empty policy selection, and the
second part on a concrete successful `Allocate` request. -/
theorem C3_witness :
    (getPreferredAllocationOne emptyPolicy vdsTwoPhys ["v1", "v2"] []
        2).map List.length = some 2 ∧
      (["v2"] : List String).length = (["q1"] : List String).length :=
  ⟨C3_theorem.1 emptyPolicy vdsTwoPhys ["v1", "v2"] [] 2
      [⟨"v1", 1024, "p1"⟩, ⟨"v2", 1024, "p2"⟩] [] (by decide) (by decide)
      (by decide) (by decide),
    C3_theorem.2 emptyPolicy [⟨"v2", 512, "p9"⟩] ⟨["v2"], []⟩ ["q1"] ["v2"]
      ⟨["v2"], [(["q1"], ["v2"])]⟩
      [LedgerOp.release ["q1"], LedgerOp.acq ["q1"] ["v2"],
        LedgerOp.acq ["q1"] ["v2"]] (by decide)⟩
